import Mathlib

/-!
Verification of portdetective's port-to-process resolution and termination
engine, shallowly embedded from the Rust sources (src/net.rs, src/proc.rs,
src/model.rs, src/main.rs, src/error.rs, src/output.rs).

OS-dependent effects are modelled as explicit capability parameters:
the process table (`Env.procs`), the user directory (`Env.userName`),
the raw kill(2) syscall (`Env.osKill`) and the interactive confirmation
answer (`Env.confirmYes`). All code paths are otherwise translated
directly from the source.
-/

namespace PortDetective

/-- Network protocol (src/model.rs, enum Protocol). -/
inductive Protocol
  | Tcp
  | Udp
  | Both
deriving DecidableEq, Repr

/-- Whether a port is in use (src/model.rs, enum PortStatus). -/
inductive PortStatus
  | Free
  | InUse
deriving DecidableEq, Repr

/-- Error taxonomy (src/error.rs, enum PortDetectiveError). -/
inductive PortDetectiveError
  | InvalidPort (port : Nat)
  | NetworkError (msg : String)
  | ProcessNotFound (pid : Nat)
  | PermissionDenied (msg : String)
  | KillFailed (pid : Nat) (reason : String)
  | PortFree (port : Nat)
  | Cancelled
deriving DecidableEq, Repr

/-- A socket bound to a port (src/net.rs, struct BoundSocket). -/
structure BoundSocket where
  pid : Nat
  port : Nat
  protocol : Protocol
  local_addr : String
deriving DecidableEq, Repr

/-- Information about a process bound to a port (src/model.rs, struct
ProcessInfo). The chrono start time is modelled as its Unix timestamp. -/
structure ProcessInfo where
  pid : Nat
  name : String
  user : String
  command : List String
  cwd : Option String
  parent_pid : Option Nat
  parent_name : Option String
  started : Option Nat
  protocol : Protocol
deriving DecidableEq, Repr

/-- Report about a port's status (src/model.rs, struct PortReport). -/
structure PortReport where
  port : Nat
  protocol : Protocol
  status : PortStatus
  processes : List ProcessInfo
deriving DecidableEq, Repr

/-- PortReport::free (src/model.rs). -/
def PortReport.free (port : Nat) (protocol : Protocol) : PortReport :=
  { port := port, protocol := protocol, status := PortStatus.Free, processes := [] }

/-- PortReport::in_use (src/model.rs). -/
def PortReport.in_use (port : Nat) (protocol : Protocol)
    (processes : List ProcessInfo) : PortReport :=
  { port := port, protocol := protocol, status := PortStatus.InUse, processes := processes }

/-- Entry in the port list (src/model.rs, struct PortEntry). -/
structure PortEntry where
  port : Nat
  protocol : Protocol
  pid : Nat
  name : String
  user : String
  command : String
deriving DecidableEq, Repr

/-- Protocol selection from the CLI (src/cli.rs, ProtocolFilter). -/
inductive ProtocolFilter
  | TcpOnly
  | UdpOnly
  | Both
deriving DecidableEq, Repr

/-- The match on ProtocolFilter performed in run_inspect and run_kill
(src/main.rs lines 61-65 and 124-128). -/
def ProtocolFilter.toProtocol : ProtocolFilter → Protocol
  | .TcpOnly => Protocol.Tcp
  | .UdpOnly => Protocol.Udp
  | .Both => Protocol.Both

/-! Socket enumerator (src/net.rs), over netstat2's socket table. -/

/-- TCP connection state as reported by netstat2 (TcpState). -/
inductive TcpState
  | Closed
  | Listen
  | SynSent
  | SynReceived
  | Established
  | FinWait1
  | FinWait2
  | CloseWait
  | Closing
  | LastAck
  | TimeWait
  | DeleteTcb
deriving DecidableEq, Repr

/-- netstat2's TcpSocketInfo, restricted to the fields the code reads. -/
structure TcpSocketInfo where
  state : TcpState
  local_port : Nat
  local_addr : String
deriving DecidableEq, Repr

/-- netstat2's UdpSocketInfo, restricted to the fields the code reads.
UDP sockets carry no connection-state field. -/
structure UdpSocketInfo where
  local_port : Nat
  local_addr : String
deriving DecidableEq, Repr

/-- netstat2's ProtocolSocketInfo. -/
inductive ProtocolSocketInfo
  | Tcp (t : TcpSocketInfo)
  | Udp (u : UdpSocketInfo)
deriving DecidableEq, Repr

/-- netstat2's SocketInfo, restricted to the fields the code reads. -/
structure SocketInfo where
  protocol_socket_info : ProtocolSocketInfo
  associated_pids : List Nat
deriving DecidableEq, Repr

/-- extract_listening_socket (src/net.rs lines 63-92): keep TCP sockets
only in LISTEN state, keep every bound UDP socket, drop sockets with no
associated PIDs, take the first associated PID as the owner. -/
def extract_listening_socket (socket : SocketInfo) : Option BoundSocket :=
  match socket.associated_pids with
  | [] => none
  | p :: _ =>
    match socket.protocol_socket_info with
    | ProtocolSocketInfo.Tcp t =>
      if t.state = TcpState.Listen then
        some { pid := p, port := t.local_port, protocol := Protocol.Tcp,
               local_addr := t.local_addr }
      else
        none
    | ProtocolSocketInfo.Udp u =>
      some { pid := p, port := u.local_port, protocol := Protocol.Udp,
             local_addr := u.local_addr }

/-- get_listening_sockets (src/net.rs lines 28-49), applied to the socket
table the OS returned: each entry that extract_listening_socket accepts
is pushed, the others are skipped. -/
def get_listening_sockets (table : List SocketInfo) : List BoundSocket :=
  table.filterMap extract_listening_socket

/-- find_processes_by_port (src/net.rs lines 22-25), applied to the
already-enumerated socket list: filter to the queried port. -/
def find_processes_by_port (sockets : List BoundSocket) (port : Nat) :
    List BoundSocket :=
  sockets.filter (fun s => s.port == port)

/-! Process resolver (src/proc.rs), over sysinfo's process table. -/

/-- The raw per-process data sysinfo exposes, restricted to the fields
proc::inspect reads. -/
structure ProcessTableEntry where
  name : String
  userId : Option Nat
  cmd : List String
  cwd : Option String
  startTime : Nat
  parent : Option Nat
deriving DecidableEq, Repr

/-- Signals used by kill_process (src/proc.rs). -/
inductive Signal
  | SIGTERM
  | SIGKILL
deriving DecidableEq, Repr

/-- An OS errno as the code observes it: whether it equals EPERM, and its
display string. -/
structure Errno where
  isEPERM : Bool
  desc : String
deriving DecidableEq, Repr

/-- The ambient OS capabilities the core uses: the process table, the user
directory, the raw kill syscall, and the caller's confirmation answer. -/
structure Env where
  procs : Nat → Option ProcessTableEntry
  userName : Nat → Option String
  osKill : Nat → Signal → Except Errno Unit
  confirmYes : Bool

/-- process_start_time (src/proc.rs lines 77-82): a zero timestamp yields
an absent start time. -/
def process_start_time (start_time : Nat) : Option Nat :=
  if start_time = 0 then none else some start_time

/-- get_parent_info (src/proc.rs lines 63-74): when a parent PID exists,
look up the parent's name best-effort; the PID is reported even when the
name lookup fails, and no failure is ever produced. -/
def get_parent_info (procs : Nat → Option ProcessTableEntry)
    (parent_pid : Option Nat) : Option Nat × Option String :=
  match parent_pid with
  | some ppid => (some ppid, (procs ppid).map (fun p => p.name))
  | none => (none, none)

/-- proc::inspect (src/proc.rs lines 9-60): resolve a PID against the
process table; absent PID fails with ProcessNotFound; the owning user
falls back to "unknown"; parent linkage comes from get_parent_info. -/
def inspect (env : Env) (pid : Nat) (protocol : Protocol) :
    Except PortDetectiveError ProcessInfo :=
  match env.procs pid with
  | none => Except.error (PortDetectiveError.ProcessNotFound pid)
  | some p =>
    let user := (p.userId.bind env.userName).getD "unknown"
    let pinfo := get_parent_info env.procs p.parent
    Except.ok
      { pid := pid, name := p.name, user := user, command := p.cmd,
        cwd := p.cwd, parent_pid := pinfo.1, parent_name := pinfo.2,
        started := process_start_time p.startTime, protocol := protocol }

/-- kill_process (src/proc.rs lines 85-109): SIGTERM by default, SIGKILL
when force is set; EPERM becomes PermissionDenied with a remediation hint,
any other errno becomes KillFailed with the raw description. -/
def kill_process (env : Env) (pid : Nat) (force : Bool) :
    Except PortDetectiveError Unit :=
  let signal := if force then Signal.SIGKILL else Signal.SIGTERM
  match env.osKill pid signal with
  | Except.ok _ => Except.ok ()
  | Except.error e =>
    if e.isEPERM then
      Except.error (PortDetectiveError.PermissionDenied
        ("Cannot kill PID " ++ toString pid ++ ". Try running with elevated permissions."))
    else
      Except.error (PortDetectiveError.KillFailed pid e.desc)

/-! Correlator and report paths (src/main.rs). -/

/-- The per-socket gathering loop of run_inspect (src/main.rs lines
79-96): skip sockets whose PID was already resolved, resolve the rest,
record the PID only on success, silently skip failed resolutions. The
resolution function is a parameter so that the loop can be stated for an
arbitrary resolver; run_inspect instantiates it with proc::inspect. -/
def run_inspect_gather (resolve : Nat → Protocol → Option ProcessInfo) :
    List BoundSocket → List Nat → List ProcessInfo
  | [], _ => []
  | s :: rest, seen_pids =>
    if s.pid ∈ seen_pids then
      run_inspect_gather resolve rest seen_pids
    else
      match resolve s.pid s.protocol with
      | some info => info :: run_inspect_gather resolve rest (s.pid :: seen_pids)
      | none => run_inspect_gather resolve rest seen_pids

/-- Result of run_inspect: the report it prints and the exit code it
returns. -/
structure InspectRun where
  report : PortReport
  exit : Nat
deriving DecidableEq, Repr

/-- run_inspect (src/main.rs lines 60-116), applied to the enumerated
socket list: filter to the port, gather deduplicated process records, and
build a Free report (exit 0) or an InUse report (exit 1). -/
def run_inspect (env : Env) (sockets : List BoundSocket) (port : Nat)
    (filter : ProtocolFilter) : InspectRun :=
  let protocol := filter.toProtocol
  let matching := find_processes_by_port sockets port
  if matching.isEmpty then
    { report := PortReport.free port protocol, exit := 0 }
  else
    let processes := run_inspect_gather
      (fun pid proto => (inspect env pid proto).toOption) matching []
    if processes.isEmpty then
      { report := PortReport.free port protocol, exit := 0 }
    else
      { report := PortReport.in_use port protocol processes, exit := 1 }

/-- Result of run_kill: the outcome, the report printed when the port is
free, the PIDs passed to proc::inspect, and the (pid, force) arguments of
every kill_process invocation. -/
structure KillRun where
  result : Except PortDetectiveError Nat
  report : Option PortReport
  resolves : List Nat
  kills : List (Nat × Bool)
deriving Repr

/-- run_kill (src/main.rs lines 119-160), applied to the enumerated
socket list: with no matching socket, print a Free report and exit 0;
otherwise resolve the first matching socket's PID (propagating failure),
ask for confirmation unless no_prompt (declining yields Cancelled), and
invoke kill_process on the resolved PID. The json flag selects the
protocol shown in the Free report, as in the source. -/
def run_kill (env : Env) (sockets : List BoundSocket) (port : Nat)
    (force no_prompt json : Bool) (filter : ProtocolFilter) : KillRun :=
  let matching := find_processes_by_port sockets port
  match matching with
  | [] =>
    let protocol := if json then filter.toProtocol else Protocol.Both
    { result := Except.ok 0, report := some (PortReport.free port protocol),
      resolves := [], kills := [] }
  | s :: _ =>
    match inspect env s.pid s.protocol with
    | Except.error e =>
      { result := Except.error e, report := none, resolves := [s.pid], kills := [] }
    | Except.ok info =>
      if ¬no_prompt ∧ ¬env.confirmYes then
        { result := Except.error PortDetectiveError.Cancelled, report := none,
          resolves := [s.pid], kills := [] }
      else
        match kill_process env info.pid force with
        | Except.error e =>
          { result := Except.error e, report := none,
            resolves := [s.pid], kills := [(info.pid, force)] }
        | Except.ok _ =>
          { result := Except.ok 0, report := none,
            resolves := [s.pid], kills := [(info.pid, force)] }

/-- The command-string flattening performed in run_list (src/main.rs
lines 177-181): empty argument list shows the name, otherwise the
arguments joined with single spaces. -/
def run_list_command (info : ProcessInfo) : String :=
  if info.command.isEmpty then info.name
  else String.intercalate " " info.command

/-- The command-string flattening performed in print_process_details
(src/output.rs lines 49-53), written out separately because the source
repeats the expression at that second site. -/
def print_process_details_command (info : ProcessInfo) : String :=
  if info.command.isEmpty then info.name
  else String.intercalate " " info.command

/-- The inner per-port loop of run_list (src/main.rs lines 170-192):
walk the sockets of one port, skipping (port, pid) pairs already seen,
resolving the rest, and recording the pair only on success. Returns the
entries pushed and the updated seen set. -/
def run_list_port (env : Env) (port : Nat) :
    List BoundSocket → List (Nat × Nat) → List PortEntry × List (Nat × Nat)
  | [], seen => ([], seen)
  | s :: rest, seen =>
    if (port, s.pid) ∈ seen then
      run_list_port env port rest seen
    else
      match inspect env s.pid s.protocol with
      | Except.ok info =>
        let entry : PortEntry :=
          { port := port, protocol := s.protocol, pid := s.pid,
            name := info.name, user := info.user,
            command := run_list_command info }
        let out := run_list_port env port rest ((port, s.pid) :: seen)
        (entry :: out.1, out.2)
      | Except.error _ => run_list_port env port rest seen

/-- The outer loop of run_list (src/main.rs lines 169-193): walk the
port map entries, threading the seen set through. The HashMap is modelled
as the association list in the (arbitrary) order iteration yields it. -/
def run_list_loop (env : Env) :
    List (Nat × List BoundSocket) → List (Nat × Nat) → List PortEntry
  | [], _ => []
  | (port, socks) :: rest, seen =>
    let out := run_list_port env port socks seen
    out.1 ++ run_list_loop env rest out.2

/-- run_list (src/main.rs lines 163-205), applied to the port map: build
the deduplicated entries, then sort them by port number (Rust's stable
sort_by_key, modelled by mergeSort). -/
def run_list (env : Env) (ports_map : List (Nat × List BoundSocket)) :
    List PortEntry :=
  (run_list_loop env ports_map []).mergeSort (fun a b => a.port ≤ b.port)

/-! Theorems for the claims, with concrete environments for witnesses. -/

/-- A process-table fake used by concrete witnesses: PID 7 is live with a
parent PID 1 that has exited; PID 9 is live with no parent link. -/
def procsW : Nat → Option ProcessTableEntry :=
  fun pid =>
    if pid = 7 then
      some { name := "nginx", userId := some 0, cmd := ["nginx", "-g"],
             cwd := some "/srv", startTime := 100, parent := some 1 }
    else if pid = 9 then
      some { name := "dnsmasq", userId := none, cmd := [],
             cwd := none, startTime := 0, parent := none }
    else
      none

/-- Environment whose kill syscall always fails with EPERM. -/
def envEPERM : Env :=
  { procs := procsW, userName := fun _ => some "root",
    osKill := fun _ _ => Except.error { isEPERM := true, desc := "EPERM" },
    confirmYes := true }

/-- Environment whose kill syscall always fails with ESRCH. -/
def envESRCH : Env :=
  { procs := procsW, userName := fun _ => some "root",
    osKill := fun _ _ => Except.error { isEPERM := false, desc := "ESRCH" },
    confirmYes := true }

/-- Environment whose kill syscall succeeds and whose caller confirms. -/
def envOk : Env :=
  { procs := procsW, userName := fun _ => some "root",
    osKill := fun _ _ => Except.ok (), confirmYes := true }

/-- Environment whose kill syscall succeeds but whose caller declines the
confirmation prompt. -/
def envDecline : Env :=
  { procs := procsW, userName := fun _ => some "root",
    osKill := fun _ _ => Except.ok (), confirmYes := false }

/-- Spec-level description (for comparison with the code's gathering
loop): keep the first socket seen for each PID, dropping later sockets
whose PID was already kept. -/
def firstSeenByPid : List BoundSocket → List Nat → List BoundSocket
  | [], _ => []
  | s :: rest, seen =>
    if s.pid ∈ seen then firstSeenByPid rest seen
    else s :: firstSeenByPid rest (s.pid :: seen)

/-- The resolver of the witness environments, as run_inspect uses it. -/
def resolveW : Nat → Protocol → Option ProcessInfo :=
  fun pid protocol => (inspect envOk pid protocol).toOption

/-- Concrete socket list for witnesses: two sockets owned by live PID 7,
one socket owned by the vanished PID 42, all on port 8080, plus one
socket owned by live PID 9 on port 53. -/
def socketsW : List BoundSocket :=
  [ { pid := 7, port := 8080, protocol := Protocol.Tcp, local_addr := "a" },
    { pid := 7, port := 8080, protocol := Protocol.Udp, local_addr := "b" },
    { pid := 42, port := 8080, protocol := Protocol.Tcp, local_addr := "c" },
    { pid := 9, port := 53, protocol := Protocol.Udp, local_addr := "d" } ]

/-- Concrete socket list whose first port-500 socket is owned by the
vanished PID 42. -/
def socketsDeadW : List BoundSocket :=
  [ { pid := 42, port := 500, protocol := Protocol.Tcp, local_addr := "x" },
    { pid := 7, port := 500, protocol := Protocol.Udp, local_addr := "y" } ]

/-- Concrete port map for witnesses: PID 7 owns sockets on two distinct
ports (8080 twice, and 53), PID 42 has vanished, PID 9 is live on 53. -/
def portsMapW : List (Nat × List BoundSocket) :=
  [ (8080,
      [ { pid := 7, port := 8080, protocol := Protocol.Tcp, local_addr := "a" },
        { pid := 7, port := 8080, protocol := Protocol.Udp, local_addr := "b" },
        { pid := 42, port := 8080, protocol := Protocol.Tcp, local_addr := "c" } ]),
    (53,
      [ { pid := 7, port := 53, protocol := Protocol.Udp, local_addr := "e" },
        { pid := 9, port := 53, protocol := Protocol.Udp, local_addr := "d" } ]) ]

/-- Any record proc::inspect returns for a PID carries that PID. -/
theorem inspect_pid_eq (env : Env) (pid : Nat) (protocol : Protocol)
    (info : ProcessInfo) (h : inspect env pid protocol = Except.ok info) :
    info.pid = pid := by
  cases hp : env.procs pid with
  | none => simp [inspect, hp] at h
  | some entry =>
    simp only [inspect, hp] at h
    cases h
    rfl

/-- Any record an Option-valued view of proc::inspect returns for a PID
carries that PID. -/
theorem inspect_toOption_pid_eq (env : Env) (pid : Nat) (protocol : Protocol)
    (info : ProcessInfo) (h : (inspect env pid protocol).toOption = some info) :
    info.pid = pid := by
  cases he : inspect env pid protocol with
  | error e => rw [he] at h; cases h
  | ok i =>
    rw [he] at h
    cases h
    exact inspect_pid_eq env pid protocol _ he

/-- The gathering loop equals resolution mapped over the first-seen-wins
deduplication of the sockets whose resolution succeeds. -/
theorem run_inspect_gather_eq_firstSeen
    (resolve : Nat → Protocol → Option ProcessInfo) :
    ∀ (sockets : List BoundSocket) (seen : List Nat),
      run_inspect_gather resolve sockets seen =
        (firstSeenByPid
          (sockets.filter fun s => (resolve s.pid s.protocol).isSome) seen).filterMap
          (fun s => resolve s.pid s.protocol)
  | [], seen => rfl
  | s :: rest, seen => by
    by_cases hseen : s.pid ∈ seen
    · cases hres : resolve s.pid s.protocol with
      | none =>
        simp [run_inspect_gather, firstSeenByPid, hseen, hres,
          run_inspect_gather_eq_firstSeen resolve rest seen]
      | some info =>
        simp [run_inspect_gather, firstSeenByPid, hseen, hres,
          run_inspect_gather_eq_firstSeen resolve rest seen]
    · cases hres : resolve s.pid s.protocol with
      | none =>
        simp [run_inspect_gather, firstSeenByPid, hseen, hres,
          run_inspect_gather_eq_firstSeen resolve rest seen]
      | some info =>
        simp [run_inspect_gather, firstSeenByPid, hseen, hres,
          run_inspect_gather_eq_firstSeen resolve rest (s.pid :: seen)]

/-- The PIDs of the gathered records are distinct and avoid the seen set,
provided resolution preserves the PID. -/
theorem run_inspect_gather_pids_nodup
    (resolve : Nat → Protocol → Option ProcessInfo)
    (hres : ∀ p pr i, resolve p pr = some i → i.pid = p) :
    ∀ (sockets : List BoundSocket) (seen : List Nat),
      ((run_inspect_gather resolve sockets seen).map (fun i => i.pid)).Nodup ∧
      ∀ x ∈ (run_inspect_gather resolve sockets seen).map (fun i => i.pid),
        x ∉ seen
  | [], seen => by simp [run_inspect_gather]
  | s :: rest, seen => by
    by_cases hseen : s.pid ∈ seen
    · simpa [run_inspect_gather, hseen] using
        run_inspect_gather_pids_nodup resolve hres rest seen
    · cases hres2 : resolve s.pid s.protocol with
      | none =>
        simpa [run_inspect_gather, hseen, hres2] using
          run_inspect_gather_pids_nodup resolve hres rest seen
      | some info =>
        have ih := run_inspect_gather_pids_nodup resolve hres rest (s.pid :: seen)
        have hpid : info.pid = s.pid := hres s.pid s.protocol info hres2
        have hg : run_inspect_gather resolve (s :: rest) seen =
            info :: run_inspect_gather resolve rest (s.pid :: seen) := by
          simp [run_inspect_gather, hseen, hres2]
        rw [hg, List.map_cons]
        constructor
        · rw [List.nodup_cons]
          refine ⟨?_, ih.1⟩
          intro hmem
          exact (ih.2 _ hmem) (by rw [hpid]; exact List.mem_cons_self _ _)
        · intro x hx
          rcases List.mem_cons.mp hx with hx | hx
          · subst hx
            rw [hpid]; exact hseen
          · intro hxs
            exact (ih.2 _ hx) (List.mem_cons_of_mem _ hxs)

/-- Every gathered record is the successful resolution of some input
socket. -/
theorem run_inspect_gather_mem
    (resolve : Nat → Protocol → Option ProcessInfo) :
    ∀ (sockets : List BoundSocket) (seen : List Nat),
      ∀ info ∈ run_inspect_gather resolve sockets seen,
        ∃ s ∈ sockets, resolve s.pid s.protocol = some info
  | [], _ => by simp [run_inspect_gather]
  | s :: rest, seen => by
    intro info hinfo
    by_cases hseen : s.pid ∈ seen
    · simp only [run_inspect_gather, if_pos hseen] at hinfo
      obtain ⟨t, ht, h⟩ := run_inspect_gather_mem resolve rest seen info hinfo
      exact ⟨t, List.mem_cons_of_mem _ ht, h⟩
    · cases hres : resolve s.pid s.protocol with
      | none =>
        simp only [run_inspect_gather, if_neg hseen, hres] at hinfo
        obtain ⟨t, ht, h⟩ := run_inspect_gather_mem resolve rest seen info hinfo
        exact ⟨t, List.mem_cons_of_mem _ ht, h⟩
      | some i =>
        simp only [run_inspect_gather, if_neg hseen, hres,
          List.mem_cons] at hinfo
        rcases hinfo with rfl | hinfo
        · exact ⟨s, List.mem_cons_self _ _, hres⟩
        · obtain ⟨t, ht, h⟩ :=
            run_inspect_gather_mem resolve rest (s.pid :: seen) info hinfo
          exact ⟨t, List.mem_cons_of_mem _ ht, h⟩

/-- C4: terminate(pid, force) asks the OS for SIGTERM when force is false
and SIGKILL when force is true — success of kill_process coincides with
success of exactly that syscall — and on failure classifies EPERM as
PermissionDenied with the remediation hint, and any other errno as
KillFailed carrying the pid and the raw error description. -/
theorem kill_process_signal_and_errors (env : Env) (pid : Nat) (force : Bool) :
    (kill_process env pid force = Except.ok () ↔
      env.osKill pid (if force then Signal.SIGKILL else Signal.SIGTERM) =
        Except.ok ()) ∧
    (∀ e : Errno,
      env.osKill pid (if force then Signal.SIGKILL else Signal.SIGTERM) =
        Except.error e →
      (e.isEPERM = true →
        kill_process env pid force =
          Except.error (PortDetectiveError.PermissionDenied
            ("Cannot kill PID " ++ toString pid ++
              ". Try running with elevated permissions."))) ∧
      (e.isEPERM = false →
        kill_process env pid force =
          Except.error (PortDetectiveError.KillFailed pid e.desc))) := by
  unfold kill_process
  cases h : env.osKill pid (if force then Signal.SIGKILL else Signal.SIGTERM) with
  | ok u => simp [h]
  | error e =>
    refine ⟨by by_cases hE : e.isEPERM <;> simp [h, hE], ?_⟩
    intro e2 he2
    cases he2
    constructor
    · intro hE; simp [h, hE]
    · intro hE; simp [h, hE]

/-- Witness for C4 at concrete inputs: an EPERM failure on a non-forced
kill yields PermissionDenied with the hint, an ESRCH failure on a forced
kill yields KillFailed with the raw description, and a successful syscall
yields success. -/
theorem kill_process_signal_and_errors_witness :
    kill_process envEPERM 7 false =
      Except.error (PortDetectiveError.PermissionDenied
        ("Cannot kill PID " ++ toString 7 ++
          ". Try running with elevated permissions.")) ∧
    kill_process envESRCH 7 true =
      Except.error (PortDetectiveError.KillFailed 7 "ESRCH") ∧
    kill_process envOk 7 true = Except.ok () :=
  ⟨((kill_process_signal_and_errors envEPERM 7 false).2
      { isEPERM := true, desc := "EPERM" } rfl).1 rfl,
   ((kill_process_signal_and_errors envESRCH 7 true).2
      { isEPERM := false, desc := "ESRCH" } rfl).2 rfl,
   (kill_process_signal_and_errors envOk 7 true).1.mpr rfl⟩

/-- C5: the enumerator's per-socket extraction drops sockets with zero
associated PIDs, drops TCP sockets in any state other than LISTEN, keeps
a LISTEN TCP socket with the first associated PID as owner, and keeps
every bound UDP socket (which carries no state field) with the first
associated PID as owner. -/
theorem extract_listening_socket_cases (s : SocketInfo) :
    (s.associated_pids = [] → extract_listening_socket s = none) ∧
    (∀ t : TcpSocketInfo, s.protocol_socket_info = ProtocolSocketInfo.Tcp t →
      t.state ≠ TcpState.Listen → extract_listening_socket s = none) ∧
    (∀ t p rest, s.protocol_socket_info = ProtocolSocketInfo.Tcp t →
      s.associated_pids = p :: rest → t.state = TcpState.Listen →
      extract_listening_socket s =
        some { pid := p, port := t.local_port, protocol := Protocol.Tcp,
               local_addr := t.local_addr }) ∧
    (∀ u p rest, s.protocol_socket_info = ProtocolSocketInfo.Udp u →
      s.associated_pids = p :: rest →
      extract_listening_socket s =
        some { pid := p, port := u.local_port, protocol := Protocol.Udp,
               local_addr := u.local_addr }) := by
  obtain ⟨psi, pids⟩ := s
  refine ⟨?_, ?_, ?_, ?_⟩
  · intro h
    subst h
    rfl
  · intro t ht hstate
    cases pids with
    | nil => rfl
    | cons p rest =>
      cases ht
      simp [extract_listening_socket, hstate]
  · intro t p rest ht hpids hstate
    cases ht
    cases hpids
    simp [extract_listening_socket, hstate]
  · intro u p rest hu hpids
    cases hu
    cases hpids
    rfl

/-- Witness for C5 at concrete sockets: an ESTABLISHED TCP socket is
dropped, a LISTEN TCP socket is kept with the first of its two PIDs, a
UDP socket is kept, and a PID-less socket is dropped. -/
theorem extract_listening_socket_cases_witness :
    extract_listening_socket
      { protocol_socket_info := ProtocolSocketInfo.Tcp
          { state := TcpState.Established, local_port := 80, local_addr := "a" },
        associated_pids := [7] } = none ∧
    extract_listening_socket
      { protocol_socket_info := ProtocolSocketInfo.Tcp
          { state := TcpState.Listen, local_port := 80, local_addr := "a" },
        associated_pids := [7, 9] } =
      some { pid := 7, port := 80, protocol := Protocol.Tcp, local_addr := "a" } ∧
    extract_listening_socket
      { protocol_socket_info := ProtocolSocketInfo.Udp
          { local_port := 53, local_addr := "b" },
        associated_pids := [9] } =
      some { pid := 9, port := 53, protocol := Protocol.Udp, local_addr := "b" } ∧
    extract_listening_socket
      { protocol_socket_info := ProtocolSocketInfo.Udp
          { local_port := 53, local_addr := "b" },
        associated_pids := [] } = none :=
  ⟨(extract_listening_socket_cases _).2.1 _ rfl (by decide),
   (extract_listening_socket_cases _).2.2.1 _ 7 [9] rfl rfl rfl,
   (extract_listening_socket_cases _).2.2.2 _ 9 [] rfl rfl,
   (extract_listening_socket_cases _).1 rfl⟩

/-- C8: resolution succeeds exactly when the target PID is in the process
table (so a failed parent lookup is never propagated as an error), and
every record it produces has: parent name absent whenever parent PID is
absent, and parent name absent whenever the parent PID is present but no
longer in the process table. -/
theorem inspect_parent_invariant (env : Env) (pid : Nat) (protocol : Protocol) :
    ((env.procs pid).isSome ↔ ∃ info, inspect env pid protocol = Except.ok info) ∧
    (∀ info, inspect env pid protocol = Except.ok info →
      (info.parent_pid = none → info.parent_name = none) ∧
      (∀ p, info.parent_pid = some p → env.procs p = none →
        info.parent_pid = some p ∧ info.parent_name = none)) := by
  cases h : env.procs pid with
  | none =>
    constructor
    · simp [inspect, h]
    · intro info hinfo
      simp [inspect, h] at hinfo
  | some entry =>
    constructor
    · simp [inspect, h]
    · intro info hinfo
      simp only [inspect, h] at hinfo
      cases hinfo
      cases hp : entry.parent with
      | none =>
        constructor
        · intro _; simp [get_parent_info, hp]
        · intro p hpp
          simp [get_parent_info, hp] at hpp
      | some q =>
        constructor
        · intro hnone
          simp [get_parent_info, hp] at hnone
        · intro p hpp hdead
          simp only [get_parent_info, hp] at hpp ⊢
          cases hpp
          simp [hdead]

/-- Witness for C8 at concrete inputs: PID 7's parent (PID 1) has exited,
so its record reports parent PID 1 with an absent parent name; PID 9 has
no parent link, so both parent fields are absent; and resolution of PID 7
itself succeeds. -/
theorem inspect_parent_invariant_witness :
    (∃ info, inspect envOk 7 Protocol.Tcp = Except.ok info) ∧
    (∀ info, inspect envOk 7 Protocol.Tcp = Except.ok info →
      info.parent_pid = some 1 ∧ info.parent_name = none) ∧
    (∀ info, inspect envOk 9 Protocol.Udp = Except.ok info →
      info.parent_pid = none ∧ info.parent_name = none) := by
  refine ⟨(inspect_parent_invariant envOk 7 Protocol.Tcp).1.mp rfl, ?_, ?_⟩
  · intro info hinfo
    have hpp : info.parent_pid = some 1 := by
      simp only [inspect, envOk, procsW] at hinfo
      cases hinfo
      rfl
    exact ⟨hpp,
      (((inspect_parent_invariant envOk 7 Protocol.Tcp).2 info hinfo).2 1 hpp rfl).2⟩
  · intro info hinfo
    have hpp : info.parent_pid = none := by
      simp only [inspect, envOk, procsW] at hinfo
      cases hinfo
      rfl
    exact ⟨hpp, ((inspect_parent_invariant envOk 9 Protocol.Udp).2 info hinfo).1 hpp⟩

/-- C9: the flattened command string equals the process name when the
argument list is empty and the space-joined arguments otherwise, and the
expression used in run_list and the one used in print_process_details
agree on every record. -/
theorem command_flattening (info : ProcessInfo) :
    run_list_command info = print_process_details_command info ∧
    (info.command = [] → run_list_command info = info.name) ∧
    (info.command ≠ [] →
      run_list_command info = String.intercalate " " info.command) := by
  refine ⟨rfl, ?_, ?_⟩
  · intro h
    simp [run_list_command, h]
  · intro h
    simp [run_list_command, List.isEmpty_iff, h]

/-- Witness for C9 at concrete records: an empty argument list displays
the process name, a two-element argument list displays the space-joined
arguments, and both source sites compute the same string. -/
theorem command_flattening_witness :
    run_list_command
      { pid := 9, name := "dnsmasq", user := "root", command := [],
        cwd := none, parent_pid := none, parent_name := none,
        started := none, protocol := Protocol.Udp } = "dnsmasq" ∧
    run_list_command
      { pid := 7, name := "nginx", user := "root", command := ["nginx", "-g"],
        cwd := none, parent_pid := none, parent_name := none,
        started := none, protocol := Protocol.Tcp } =
      String.intercalate " " ["nginx", "-g"] ∧
    run_list_command
      { pid := 7, name := "nginx", user := "root", command := ["nginx", "-g"],
        cwd := none, parent_pid := none, parent_name := none,
        started := none, protocol := Protocol.Tcp } =
      print_process_details_command
        { pid := 7, name := "nginx", user := "root", command := ["nginx", "-g"],
          cwd := none, parent_pid := none, parent_name := none,
          started := none, protocol := Protocol.Tcp } :=
  ⟨(command_flattening _).2.1 rfl,
   (command_flattening _).2.2 (by decide),
   (command_flattening _).1⟩

/-- C1: in the single-port inspect path's gathering loop, for every input
socket sequence and resolution function (one that reports records under
their own PID, as proc::inspect does), the output equals resolution
applied to the first-seen-wins deduplication of those sockets whose
resolution succeeds — so each distinct PID contributes at most one
record (no duplicate PIDs in the output), later sockets of an
already-resolved PID are folded away, and a socket whose resolution
fails is silently excluded rather than producing an error. -/
theorem run_inspect_dedup_by_pid
    (resolve : Nat → Protocol → Option ProcessInfo) (sockets : List BoundSocket)
    (hres : ∀ p pr i, resolve p pr = some i → i.pid = p) :
    run_inspect_gather resolve sockets [] =
      (firstSeenByPid
        (sockets.filter fun s => (resolve s.pid s.protocol).isSome) []).filterMap
        (fun s => resolve s.pid s.protocol) ∧
    ((run_inspect_gather resolve sockets []).map (fun i => i.pid)).Nodup ∧
    ∀ info ∈ run_inspect_gather resolve sockets [],
      ∃ s ∈ sockets, resolve s.pid s.protocol = some info :=
  ⟨run_inspect_gather_eq_firstSeen resolve sockets [],
   (run_inspect_gather_pids_nodup resolve hres sockets []).1,
   run_inspect_gather_mem resolve sockets []⟩

/-- Witness for C1 at concrete inputs: on port 8080 the input has two
sockets owned by live PID 7 and one owned by the vanished PID 42, and the
gathered output consists of exactly one record, for PID 7 (the PID list
of the output is [7] and is duplicate-free). -/
theorem run_inspect_dedup_by_pid_witness :
    ((run_inspect_gather resolveW (find_processes_by_port socketsW 8080) []).map
      (fun i => i.pid) = [7]) ∧
    ((run_inspect_gather resolveW (find_processes_by_port socketsW 8080) []).map
      (fun i => i.pid)).Nodup :=
  ⟨by decide,
   (run_inspect_dedup_by_pid resolveW (find_processes_by_port socketsW 8080)
      (fun p pr i h => inspect_toOption_pid_eq envOk p pr i h)).2.1⟩

/-- C6: every report the inspect path produces has status Free exactly
when its process list is empty; in particular, when zero sockets survive
the port filter and resolution, the report is the Free report (whose
process list is empty). -/
theorem run_inspect_free_iff (env : Env) (sockets : List BoundSocket)
    (port : Nat) (filter : ProtocolFilter) :
    ((run_inspect env sockets port filter).report.status = PortStatus.Free ↔
      (run_inspect env sockets port filter).report.processes = []) ∧
    (run_inspect_gather (fun pid proto => (inspect env pid proto).toOption)
        (find_processes_by_port sockets port) [] = [] →
      (run_inspect env sockets port filter).report =
        PortReport.free port filter.toProtocol) := by
  by_cases h1 : (find_processes_by_port sockets port).isEmpty
  · constructor
    · simp [run_inspect, h1, PortReport.free]
    · intro _
      simp [run_inspect, h1]
  · by_cases h2 : (run_inspect_gather
        (fun pid proto => (inspect env pid proto).toOption)
        (find_processes_by_port sockets port) []).isEmpty
    · constructor
      · simp [run_inspect, h1, h2, PortReport.free]
      · intro _
        simp [run_inspect, h1, h2]
    · constructor
      · rw [List.isEmpty_iff] at h2
        simp [run_inspect, h1, List.isEmpty_iff, h2, PortReport.in_use]
      · intro hg
        rw [List.isEmpty_iff] at h2
        exact absurd hg h2

/-- Witness for C6 at concrete inputs: no socket of the input list is
bound on port 9999, so inspecting 9999 reports Free with an empty process
list, and the Free-iff-empty equivalence holds at that input. -/
theorem run_inspect_free_iff_witness :
    ((run_inspect envOk socketsW 9999 ProtocolFilter.Both).report.status =
        PortStatus.Free ↔
      (run_inspect envOk socketsW 9999 ProtocolFilter.Both).report.processes = []) ∧
    (run_inspect envOk socketsW 9999 ProtocolFilter.Both).report =
      PortReport.free 9999 Protocol.Both :=
  ⟨(run_inspect_free_iff envOk socketsW 9999 ProtocolFilter.Both).1,
   (run_inspect_free_iff envOk socketsW 9999 ProtocolFilter.Both).2 rfl⟩

/-- C2: in the kill path with a non-empty matching socket sequence, every
kill_process invocation targets the first matching socket's PID with the
requested force flag (the sole termination target), and when that PID has
vanished from the process table the failure propagates to the caller as
ProcessNotFound with no kill invocation, instead of being silently
absorbed as in the inspect/list paths. -/
theorem run_kill_first_socket_target (env : Env) (sockets : List BoundSocket)
    (port : Nat) (force no_prompt json : Bool) (filter : ProtocolFilter)
    (s : BoundSocket) (rest : List BoundSocket)
    (hmatch : find_processes_by_port sockets port = s :: rest) :
    (env.procs s.pid = none →
      (run_kill env sockets port force no_prompt json filter).result =
        Except.error (PortDetectiveError.ProcessNotFound s.pid) ∧
      (run_kill env sockets port force no_prompt json filter).kills = []) ∧
    (∀ p b,
      (p, b) ∈ (run_kill env sockets port force no_prompt json filter).kills →
      p = s.pid ∧ b = force) := by
  constructor
  · intro hdead
    constructor <;> simp [run_kill, hmatch, inspect, hdead]
  · intro p b hmem
    simp only [run_kill, hmatch] at hmem
    cases hi : inspect env s.pid s.protocol with
    | error e =>
      rw [hi] at hmem
      simp at hmem
    | ok info =>
      rw [hi] at hmem
      have hpid : info.pid = s.pid := inspect_pid_eq env s.pid s.protocol info hi
      by_cases hc : ¬no_prompt ∧ ¬env.confirmYes
      · simp [hc] at hmem
      · simp only [if_neg hc] at hmem
        cases hk : kill_process env info.pid force with
        | error e =>
          rw [hk] at hmem
          simp at hmem
          exact ⟨hmem.1.trans hpid, hmem.2⟩
        | ok u =>
          rw [hk] at hmem
          simp at hmem
          exact ⟨hmem.1.trans hpid, hmem.2⟩

/-- Witness for C2 at concrete inputs: with the port-500 sockets headed
by the vanished PID 42, the kill path fails with ProcessNotFound 42 and
performs no kill; and in a successful kill of the port-8080 sockets
headed by live PID 7, the recorded kill invocation targets PID 7 with the
requested force flag. -/
theorem run_kill_first_socket_target_witness :
    ((run_kill envOk socketsDeadW 500 false true false ProtocolFilter.Both).result =
        Except.error (PortDetectiveError.ProcessNotFound 42) ∧
      (run_kill envOk socketsDeadW 500 false true false ProtocolFilter.Both).kills =
        []) ∧
    (7 = 7 ∧ true = true) :=
  ⟨(run_kill_first_socket_target envOk socketsDeadW 500 false true false
      ProtocolFilter.Both _ _ rfl).1 rfl,
   (run_kill_first_socket_target envOk socketsW 8080 true true false
      ProtocolFilter.Both _ _ rfl).2 7 true (by decide)⟩

/-- C3: when the caller declines the kill confirmation (prompting is on
and the answer is no), the kill path performs no kill_process invocation
and its outcome is the distinct Cancelled result, not a termination
failure. -/
theorem run_kill_decline_cancelled (env : Env) (sockets : List BoundSocket)
    (port : Nat) (force json : Bool) (filter : ProtocolFilter)
    (s : BoundSocket) (rest : List BoundSocket)
    (hmatch : find_processes_by_port sockets port = s :: rest)
    (info : ProcessInfo) (hres : inspect env s.pid s.protocol = Except.ok info)
    (hanswer : env.confirmYes = false) :
    (run_kill env sockets port force false json filter).result =
      Except.error PortDetectiveError.Cancelled ∧
    (run_kill env sockets port force false json filter).kills = [] := by
  constructor <;> simp [run_kill, hmatch, hres, hanswer]

/-- Witness for C3 at concrete inputs: declining the confirmation for the
live PID 7 on port 8080 yields Cancelled and no kill invocation. -/
theorem run_kill_decline_cancelled_witness :
    (run_kill envDecline socketsW 8080 false false false ProtocolFilter.Both).result =
      Except.error PortDetectiveError.Cancelled ∧
    (run_kill envDecline socketsW 8080 false false false ProtocolFilter.Both).kills =
      [] :=
  run_kill_decline_cancelled envDecline socketsW 8080 false false
    ProtocolFilter.Both _ _ rfl _ rfl rfl

/-- C10: when the kill path finds zero sockets matching the queried port,
it performs no resolution and no kill_process invocation, and returns the
success outcome (exit code 0) with a Free port report rather than an
error. -/
theorem run_kill_no_match_free (env : Env) (sockets : List BoundSocket)
    (port : Nat) (force no_prompt json : Bool) (filter : ProtocolFilter)
    (hmatch : find_processes_by_port sockets port = []) :
    run_kill env sockets port force no_prompt json filter =
      { result := Except.ok 0,
        report := some (PortReport.free port
          (if json then filter.toProtocol else Protocol.Both)),
        resolves := [], kills := [] } := by
  simp [run_kill, hmatch]

/-- Witness for C10 at concrete inputs: no socket of the input list is
bound on port 9999, so the kill path returns exit 0 with a Free report,
resolving and killing nothing. -/
theorem run_kill_no_match_free_witness :
    run_kill envOk socketsW 9999 false false true ProtocolFilter.TcpOnly =
      { result := Except.ok 0,
        report := some (PortReport.free 9999
          (if true then ProtocolFilter.TcpOnly.toProtocol else Protocol.Both)),
        resolves := [], kills := [] } :=
  run_kill_no_match_free envOk socketsW 9999 false false true
    ProtocolFilter.TcpOnly rfl

/-- A failed proc::inspect means the PID was absent from the process
table. -/
theorem inspect_error_none (env : Env) (pid : Nat) (protocol : Protocol)
    (e : PortDetectiveError) (h : inspect env pid protocol = Except.error e) :
    env.procs pid = none := by
  cases hp : env.procs pid with
  | none => rfl
  | some entry => simp [inspect, hp] at h

/-- The seen set run_list's inner loop returns is the reversed (port,
pid) pairs of the entries it pushed, on top of the incoming seen set. -/
theorem run_list_port_seen_eq (env : Env) (port : Nat) :
    ∀ (socks : List BoundSocket) (seen : List (Nat × Nat)),
      (run_list_port env port socks seen).2 =
        ((run_list_port env port socks seen).1.map
          (fun e => (e.port, e.pid))).reverse ++ seen
  | [], seen => rfl
  | s :: rest, seen => by
    by_cases hseen : (port, s.pid) ∈ seen
    · simpa [run_list_port, hseen] using
        run_list_port_seen_eq env port rest seen
    · cases hi : inspect env s.pid s.protocol with
      | error e =>
        simpa [run_list_port, hseen, hi] using
          run_list_port_seen_eq env port rest seen
      | ok info =>
        have ih := run_list_port_seen_eq env port rest ((port, s.pid) :: seen)
        simp [run_list_port, hseen, hi, ih, List.append_assoc]

/-- The inner loop preserves distinctness of the seen set. -/
theorem run_list_port_seen_nodup (env : Env) (port : Nat) :
    ∀ (socks : List BoundSocket) (seen : List (Nat × Nat)), seen.Nodup →
      (run_list_port env port socks seen).2.Nodup
  | [], _ => fun h => h
  | s :: rest, seen => by
    intro h
    by_cases hseen : (port, s.pid) ∈ seen
    · simpa [run_list_port, hseen] using
        run_list_port_seen_nodup env port rest seen h
    · cases hi : inspect env s.pid s.protocol with
      | error e =>
        simpa [run_list_port, hseen, hi] using
          run_list_port_seen_nodup env port rest seen h
      | ok info =>
        have h2 : ((port, s.pid) :: seen).Nodup := List.nodup_cons.mpr ⟨hseen, h⟩
        simpa [run_list_port, hseen, hi] using
          run_list_port_seen_nodup env port rest ((port, s.pid) :: seen) h2

/-- Every resolvable socket handed to the inner loop is represented: its
(port, pid) pair was already seen, or an entry with that port and PID is
among the pushed entries. -/
theorem run_list_port_complete (env : Env) (port : Nat) :
    ∀ (socks : List BoundSocket) (seen : List (Nat × Nat)) (s : BoundSocket),
      s ∈ socks → (env.procs s.pid).isSome →
      (port, s.pid) ∈ seen ∨
      ∃ e ∈ (run_list_port env port socks seen).1, e.port = port ∧ e.pid = s.pid
  | [], _, s => by intro h; cases h
  | x :: rest, seen, s => by
    intro hmem hsome
    by_cases hseen : (port, x.pid) ∈ seen
    · rcases List.mem_cons.mp hmem with rfl | hmem2
      · exact Or.inl hseen
      · have ih := run_list_port_complete env port rest seen s hmem2 hsome
        simpa [run_list_port, hseen] using ih
    · cases hi : inspect env x.pid x.protocol with
      | ok info =>
        by_cases hp : s.pid = x.pid
        · refine Or.inr ⟨PortEntry.mk port x.protocol x.pid info.name info.user
            (run_list_command info), ?_, rfl, hp.symm⟩
          simp [run_list_port, hseen, hi]
        · rcases List.mem_cons.mp hmem with rfl | hmem2
          · exact absurd rfl hp
          · have ih := run_list_port_complete env port rest
              ((port, x.pid) :: seen) s hmem2 hsome
            rcases ih with hin | ⟨e, he, hpe⟩
            · rcases List.mem_cons.mp hin with heq | hin2
              · exact absurd (congrArg Prod.snd heq) hp
              · exact Or.inl hin2
            · refine Or.inr ⟨e, ?_, hpe⟩
              simp only [run_list_port, if_neg hseen, hi, List.mem_cons]
              exact Or.inr he
      | error e =>
        rcases List.mem_cons.mp hmem with rfl | hmem2
        · rw [inspect_error_none env s.pid s.protocol e hi] at hsome
          simp at hsome
        · have ih := run_list_port_complete env port rest seen s hmem2 hsome
          simpa [run_list_port, hseen, hi] using ih

/-- The (port, pid) pairs of run_list's unsorted entry list are distinct
and avoid the incoming seen set. -/
theorem run_list_loop_pairs_nodup (env : Env) :
    ∀ (maps : List (Nat × List BoundSocket)) (seen : List (Nat × Nat)),
      seen.Nodup →
      ((run_list_loop env maps seen).map (fun e => (e.port, e.pid))).Nodup ∧
      ∀ e ∈ run_list_loop env maps seen, (e.port, e.pid) ∉ seen
  | [], seen => by
    intro h
    simp [run_list_loop]
  | (port, socks) :: rest, seen => by
    intro h
    rcases hsp : run_list_port env port socks seen with ⟨es, seen2⟩
    have heq : seen2 = (es.map (fun e => (e.port, e.pid))).reverse ++ seen := by
      have h2 := run_list_port_seen_eq env port socks seen
      rw [hsp] at h2
      exact h2
    have hnd2 : seen2.Nodup := by
      have h2 := run_list_port_seen_nodup env port socks seen h
      rw [hsp] at h2
      exact h2
    have ih := run_list_loop_pairs_nodup env rest seen2 hnd2
    have hloop : run_list_loop env ((port, socks) :: rest) seen =
        es ++ run_list_loop env rest seen2 := by
      simp [run_list_loop, hsp]
    rw [hloop]
    rw [heq] at hnd2
    have hnd := List.nodup_append.mp hnd2
    constructor
    · rw [List.map_append, List.nodup_append]
      refine ⟨List.nodup_reverse.mp hnd.1, ih.1, ?_⟩
      intro a ha hb
      obtain ⟨e, he, rfl⟩ := List.mem_map.mp hb
      exact ih.2 e he (by
        rw [heq]
        exact List.mem_append_left _ (List.mem_reverse.mpr ha))
    · intro e he
      rcases List.mem_append.mp he with he | he
      · exact fun hc =>
          hnd.2.2 (List.mem_reverse.mpr (List.mem_map_of_mem _ he)) hc
      · intro hc
        exact ih.2 e he (by
          rw [heq]
          exact List.mem_append_right _ hc)

/-- Every resolvable socket of the port map is represented in run_list's
unsorted entry list, unless its pair was already seen. -/
theorem run_list_loop_complete (env : Env) :
    ∀ (maps : List (Nat × List BoundSocket)) (seen : List (Nat × Nat))
      (port : Nat) (socks : List BoundSocket) (s : BoundSocket),
      (port, socks) ∈ maps → s ∈ socks → (env.procs s.pid).isSome →
      (port, s.pid) ∈ seen ∨
      ∃ e ∈ run_list_loop env maps seen, e.port = port ∧ e.pid = s.pid
  | [], _, _, _, _ => by
    intro h
    cases h
  | (p2, socks2) :: rest, seen, port, socks, s => by
    intro hmaps hmem hsome
    rcases hsp : run_list_port env p2 socks2 seen with ⟨es, seen2⟩
    have hloop : run_list_loop env ((p2, socks2) :: rest) seen =
        es ++ run_list_loop env rest seen2 := by
      simp [run_list_loop, hsp]
    rcases List.mem_cons.mp hmaps with heq | hmaps2
    · have hport : port = p2 := congrArg Prod.fst heq
      have hsocks : socks = socks2 := congrArg Prod.snd heq
      subst hport
      subst hsocks
      have hc := run_list_port_complete env port socks seen s hmem hsome
      rw [hsp] at hc
      rcases hc with hin | ⟨e, he, hpe⟩
      · exact Or.inl hin
      · exact Or.inr ⟨e, by
          rw [hloop]
          exact List.mem_append_left _ he, hpe⟩
    · have heq2 : seen2 = (es.map (fun e => (e.port, e.pid))).reverse ++ seen := by
        have h2 := run_list_port_seen_eq env p2 socks2 seen
        rw [hsp] at h2
        exact h2
      have ih := run_list_loop_complete env rest seen2 port socks s hmaps2 hmem hsome
      rcases ih with hin | ⟨e, he, hpe⟩
      · rw [heq2] at hin
        rcases List.mem_append.mp hin with hin | hin
        · obtain ⟨e, he, hpair⟩ := List.mem_map.mp (List.mem_reverse.mp hin)
          refine Or.inr ⟨e, by
            rw [hloop]
            exact List.mem_append_left _ he, ?_⟩
          exact ⟨congrArg Prod.fst hpair, congrArg Prod.snd hpair⟩
        · exact Or.inl hin
      · exact Or.inr ⟨e, by
          rw [hloop]
          exact List.mem_append_right _ he, hpe⟩

/-- C7: for every input port map, the full-listing result contains at
most one PortEntry per (port, PID) pair, is sorted non-decreasing by
port number, and represents every resolvable socket once per port it
owns — so the same PID bound on two different ports yields two distinct
rows. -/
theorem run_list_unique_sorted (env : Env)
    (ports_map : List (Nat × List BoundSocket)) :
    ((run_list env ports_map).map (fun e => (e.port, e.pid))).Nodup ∧
    (run_list env ports_map).Pairwise (fun a b => a.port ≤ b.port) ∧
    (∀ port socks s, (port, socks) ∈ ports_map → s ∈ socks →
      (env.procs s.pid).isSome →
      ∃ e ∈ run_list env ports_map, e.port = port ∧ e.pid = s.pid) := by
  have hperm : List.Perm (run_list env ports_map) (run_list_loop env ports_map []) :=
    List.mergeSort_perm _ _
  refine ⟨?_, ?_, ?_⟩
  · exact ((hperm.map _).nodup_iff).mpr
      (run_list_loop_pairs_nodup env ports_map [] List.nodup_nil).1
  · unfold run_list
    refine List.Pairwise.imp ?_
      (List.sorted_mergeSort ?_ ?_ (run_list_loop env ports_map []))
    · intro a b hab
      exact of_decide_eq_true hab
    · intro a b c hab hbc
      exact decide_eq_true
        (Nat.le_trans (of_decide_eq_true hab) (of_decide_eq_true hbc))
    · intro a b
      rcases Nat.le_total a.port b.port with h | h
      · simp [decide_eq_true h]
      · simp [decide_eq_true h]
  · intro port socks s hm hs hsome
    rcases run_list_loop_complete env ports_map [] port socks s hm hs hsome with
      hin | ⟨e, he, hpe⟩
    · cases hin
    · exact ⟨e, hperm.mem_iff.mpr he, hpe⟩

/-- Witness for C7 at concrete inputs: the resulting pairs are
duplicate-free, and PID 7 — which owns sockets on both port 53 and port
8080 — appears in one row for each of the two ports. -/
theorem run_list_unique_sorted_witness :
    ((run_list envOk portsMapW).map (fun e => (e.port, e.pid))).Nodup ∧
    (∃ e ∈ run_list envOk portsMapW, e.port = 8080 ∧ e.pid = 7) ∧
    (∃ e ∈ run_list envOk portsMapW, e.port = 53 ∧ e.pid = 7) :=
  ⟨(run_list_unique_sorted envOk portsMapW).1,
   (run_list_unique_sorted envOk portsMapW).2.2 8080
      [ { pid := 7, port := 8080, protocol := Protocol.Tcp, local_addr := "a" },
        { pid := 7, port := 8080, protocol := Protocol.Udp, local_addr := "b" },
        { pid := 42, port := 8080, protocol := Protocol.Tcp, local_addr := "c" } ]
      { pid := 7, port := 8080, protocol := Protocol.Tcp, local_addr := "a" }
      (by decide) (by decide) rfl,
   (run_list_unique_sorted envOk portsMapW).2.2 53
      [ { pid := 7, port := 53, protocol := Protocol.Udp, local_addr := "e" },
        { pid := 9, port := 53, protocol := Protocol.Udp, local_addr := "d" } ]
      { pid := 7, port := 53, protocol := Protocol.Udp, local_addr := "e" }
      (by decide) (by decide) rfl⟩

end PortDetective
